import Mathlib

/-!
Verification of the IoT-GPT core logic (src/app.py) against its
natural-language specification.

The file shallowly embeds the pure content of the Flask application:
the domain classifier `detect_domains`, the Wokwi part lookup
`component_to_wokwi_part`, the scene generator `generate_wokwi_diagram`,
the simulator-link chooser `get_wokwi_link`, the progression engine
`update_xp_and_streak` (sqlite state passed explicitly as `UserState`),
the code-fence handling of `get_ai_design`, and the exception flow of the
`home` POST handler.  Machine strings are Lean `String`s / `List Char`;
calendar dates are day numbers (`Int`); the per-user rows of the
`users` and `domains_used` tables form the `UserState` record.
-/

namespace IotGpt

/-- Python substring test `x in t` (`t` is the haystack, `x` the needle). -/
def containsSub : List Char → List Char → Bool
  | [], x => x.isEmpty
  | c :: rest, x => x.isPrefixOf (c :: rest) || containsSub rest x

/-- `strContains t x` models Python `x in t` on strings. -/
def strContains (t x : String) : Bool :=
  containsSub t.data x.data

/-- Python `str.lower()` (the inputs here are ASCII); semantically the
same as `String.toLower`, but structurally recursive so that concrete
instances evaluate inside the kernel. -/
def lower (s : String) : String :=
  ⟨s.data.map Char.toLower⟩

/-- The closed set of domain tags used by `detect_domains` in src/app.py. -/
inductive Domain where
  | sensor
  | display
  | cloud
  | actuator
deriving DecidableEq, Repr

/-- The keyword markers of each domain, exactly the four lists at
src/app.py lines 200-207. -/
def domainMarkers : Domain → List String
  | .sensor => ["sensor", "dht", "mq", "ultrasonic", "ir"]
  | .display => ["lcd", "oled", "display"]
  | .cloud => ["wifi", "cloud", "mqtt", "thingspeak", "esp"]
  | .actuator => ["relay", "motor", "buzzer", "pump", "servo"]

/-- One component name `c` puts domain `d` into the detected set iff the
lower-cased name contains one of the domain's markers
(`any(x in t for x in [...])` in src/app.py). -/
def componentHasDomain (d : Domain) (c : String) : Bool :=
  (domainMarkers d).any (fun m => strContains (lower c) m)

/-- Canonical enumeration of the four domain tags. -/
def allDomains : List Domain :=
  [.sensor, .display, .cloud, .actuator]

/-- `detect_domains` (src/app.py lines 196-208).  The Python function
accumulates tags in a `set` and returns `list(domains)`; the set is
rendered here as a duplicate-free list in the canonical order
(all theorems about its use are order-independent). -/
def detect_domains (components : List String) : List Domain :=
  allDomains.filter (fun d => components.any (fun c => componentHasDomain d c))

/-- `component_to_wokwi_part` (src/app.py lines 107-129): first matching
keyword rule wins, on the lower-cased name. -/
def component_to_wokwi_part (name : String) : Option String :=
  let n := lower name
  if strContains n "dht" then some "wokwi-dht11"
  else if strContains n "ultrasonic" || strContains n "hc-sr04" then some "wokwi-hc-sr04"
  else if strContains n "lcd" then some "wokwi-lcd1602"
  else if strContains n "oled" then some "wokwi-ssd1306"
  else if strContains n "relay" then some "wokwi-relay"
  else if strContains n "servo" then some "wokwi-servo"
  else if strContains n "led" then some "wokwi-led"
  else if strContains n "buzzer" then some "wokwi-buzzer"
  else if strContains n "gas" || strContains n "mq" then some "wokwi-mq2"
  else none

/-- One entry of the `parts` array of the Wokwi diagram. -/
structure Part where
  id : String
  type : String
  top : Int
  left : Int
deriving DecidableEq, Repr

instance : Inhabited Part := ⟨⟨"", "", 0, 0⟩⟩

/-- The diagram dictionary built by `generate_wokwi_diagram`
(src/app.py lines 169-175); `json.dumps` serialisation is elided. -/
structure Diagram where
  version : Nat
  author : String
  editor : String
  parts : List Part
  connections : List String
deriving DecidableEq, Repr

/-- The placement loop of `generate_wokwi_diagram` (src/app.py lines
150-167): `x`,`y` are the running grid coordinates, `idx` the running
part counter (Python `f"p{idx}"` is decimal, i.e. `Nat.repr`). -/
def placeParts : List String → Int → Int → Nat → List Part
  | [], _, _, _ => []
  | c :: cs, x, y, idx =>
    match component_to_wokwi_part c with
    | some part =>
      let placed : Part := ⟨"p" ++ Nat.repr idx, part, y, x⟩
      let x' := x + 120
      if x' > 180 then placed :: placeParts cs (-180) (y + 120) (idx + 1)
      else placed :: placeParts cs x' y (idx + 1)
    | none => placeParts cs x y idx

/-- `generate_wokwi_diagram` (src/app.py lines 134-177). -/
def generate_wokwi_diagram (mcu : String) (components : List String) : Diagram :=
  let board :=
    if strContains (lower mcu) "esp32" then "wokwi-esp32-devkit-v1"
    else if strContains (lower mcu) "esp8266" then "wokwi-esp8266"
    else "wokwi-arduino-uno"
  { version := 1
    author := "IoT GPT"
    editor := "wokwi"
    parts := ⟨"mcu", board, 0, 0⟩ :: placeParts components (-180) 140 0
    connections := [] }

/-- `get_wokwi_link` (src/app.py lines 182-191). -/
def get_wokwi_link (mcu : String) : String :=
  let m := lower mcu
  if strContains m "esp32" then "https://wokwi.com/projects/new/esp32"
  else if strContains m "esp8266" then "https://wokwi.com/projects/new/esp8266"
  else "https://wokwi.com/projects/new/arduino-uno"

/-- The per-user persistent state read and written by
`update_xp_and_streak`: the `xp`, `streak`, `last_visit` columns of the
`users` row and the set of `domains_used` rows of that user.  Dates are
day numbers, so Python's `(date.today() - last).days` is `today - last`. -/
structure UserState where
  xp : Int
  streak : Int
  last_visit : Option Int
  used : Finset Domain
deriving DecidableEq

/-- The per-domain XP loop of `update_xp_and_streak` (src/app.py lines
233-239): returns the grown `domains_used` set and the accumulated gain. -/
def domainLoop : List Domain → Finset Domain → Nat → Finset Domain × Nat
  | [], used, g => (used, g)
  | d :: ds, used, g =>
    if d ∈ used then domainLoop ds used (g + 5)
    else domainLoop ds (insert d used) (g + 30)

/-- `update_xp_and_streak` (src/app.py lines 213-253), with the sqlite
reads/writes made explicit: takes today's date, the user's state and the
detected domain list, returns the committed state and `gained_xp`. -/
def update_xp_and_streak (today : Int) (s : UserState) (domains : List Domain) :
    UserState × Nat :=
  let streak :=
    match s.last_visit with
    | some last =>
      if today - last = 1 then s.streak + 1
      else if today - last > 1 then 1
      else s.streak
    | none => 1
  let p := domainLoop domains s.used 0
  let g1 := p.2 + (if Domain.cloud ∈ domains then 30 else 0)
  let g2 := g1 + (if Domain.display ∈ domains then 20 else 0)
  let gained := g2 + (if Domain.actuator ∈ domains then 20 else 0)
  (⟨s.xp + gained, streak, some today, p.1⟩, gained)

/-! ### Code-fence handling of `get_ai_design` (src/app.py lines 97-102)

Python string primitives are embedded over `List Char`: `trimChars` is
`str.strip()`, `splitFence` is `str.split` specialised to the separator
of three backticks, exactly as the source uses them. -/

/-- The whitespace recognised by `str.strip()` (the forms occurring in
model output). -/
def isWS (c : Char) : Bool :=
  c = ' ' || c = '\n' || c = '\t' || c = '\r'

/-- Python `str.strip()`. -/
def trimChars (l : List Char) : List Char :=
  ((l.dropWhile isWS).reverse.dropWhile isWS).reverse

/-- The backtick character. -/
def tick : Char := Char.ofNat 96

/-- The three-backtick fence separator. -/
def fence : List Char := [tick, tick, tick]

/-- Python `text.split("` ``` `")`: split on each non-overlapping,
leftmost-first occurrence of the fence. -/
def splitFence : List Char → List (List Char)
  | c1 :: c2 :: c3 :: rest =>
    if c1 = tick && c2 = tick && c3 = tick then
      [] :: splitFence rest
    else
      match splitFence (c2 :: c3 :: rest) with
      | [] => [[c1]]
      | piece :: more => (c1 :: piece) :: more
  | l => [l]

/-- The response post-processing of `get_ai_design` (src/app.py lines
97-101): strip the text; if it starts with a fence, keep
`text.split("` ``` `")[1]`; the result is handed to `json.loads`. -/
def stripFence (raw : List Char) : List Char :=
  let text := trimChars raw
  if fence.isPrefixOf text then (splitFence text).getD 1 []
  else text

/-- Modelled from the spec: the stripped text is parsed by `json.loads`
(Python standard library, not part of this repository).  A text can
parse as a JSON document only if, after leading whitespace, it begins
with a JSON value token — an object brace, an array bracket, a string
quote, a number, or one of the literals `true`/`false`/`null`.
`jsonStartOk` is this necessary condition; `json.loads` is also
invariant under leading/trailing whitespace, so two texts with equal
`trimChars` parse to the same document. -/
def jsonStartOk (l : List Char) : Bool :=
  match l.dropWhile isWS with
  | [] => false
  | c :: _ =>
    c = Char.ofNat 123 || c = '[' || c = Char.ofNat 34 || c = '-' || c.isDigit ||
    c = 't' || c = 'f' || c = 'n'

/-! ### The POST branch of the `home` handler (src/app.py lines 319-340) -/

/-- The parsed JSON document as the `home` handler sees it: `json.loads`
returns a dict, so every expected key may be absent (`Option`); a
missing key raises `KeyError` at its first subscript access. -/
structure DesignDoc where
  introduction : Option String
  microcontroller : Option String
  components : Option (List String)
  pin_config : Option (List String)
  algorithm : Option (List String)
  flowchart : Option String
  arduino_code : Option String

/-- Outcome of `get_ai_design` as observed by `home`: an exception (the
model call failed or `json.loads` rejected the text), or a parsed
document. -/
inductive AiResult where
  | failure
  | success (doc : DesignDoc)

/-- The POST branch of `home` (src/app.py lines 319-340) restricted to
its effect on the user's persistent state.  `data["components"]` is read
before `update_xp_and_streak`, so a missing `components` key raises
`KeyError` inside the `try` with nothing mutated; `data["microcontroller"]`
is read at `get_wokwi_link` *after* `update_xp_and_streak` has committed,
so that `KeyError` is caught only after the XP/streak/domain update is
durable.  The returned `Bool` records whether the chat row was appended
(the insert at line 335 runs only when no exception occurred before it). -/
def homePost (today : Int) (s : UserState) (ai : AiResult) : UserState × Bool :=
  match ai with
  | .failure => (s, false)
  | .success doc =>
    match doc.components with
    | none => (s, false)
    | some comps =>
      let r := update_xp_and_streak today s (detect_domains comps)
      match doc.microcontroller with
      | none => (r.1, false)
      | some _ => (r.1, true)

/-! ### Specification-side definitions

These definitions transcribe the spec's wording (priority table, grid
layout) so the theorems can compare them with the code's definitions. -/

/-- The part-type lookup table exactly as the spec words it: "first
matching rule wins, case-insensitive substring match, in this priority
order". -/
def specPartTable : List (List String × String) :=
  [(["dht"], "wokwi-dht11"),
   (["ultrasonic", "hc-sr04"], "wokwi-hc-sr04"),
   (["lcd"], "wokwi-lcd1602"),
   (["oled"], "wokwi-ssd1306"),
   (["relay"], "wokwi-relay"),
   (["servo"], "wokwi-servo"),
   (["led"], "wokwi-led"),
   (["buzzer"], "wokwi-buzzer"),
   (["gas", "mq"], "wokwi-mq2")]

/-- First-matching-rule lookup over `specPartTable`. -/
def specPartLookup (name : String) : Option String :=
  (specPartTable.find? (fun r => r.1.any (fun m => strContains (lower name) m))).map Prod.snd

/-- The `left` coordinate of grid slot `k` per the spec: start at -180,
advance by +120, wrap every fourth slot. -/
def slotLeft (k : Nat) : Int := -180 + 120 * ((k % 4 : Nat) : Int)

/-- The `top` coordinate of grid slot `k` per the spec: start at 140,
advance by +120 on each wrap. -/
def slotTop (k : Nat) : Int := 140 + 120 * ((k / 4 : Nat) : Int)

/-- The parts list the spec describes: the `j`-th resolved part type
(counting from slot `k`) sits in grid slot `k + j` with id
`"p" ++ repr (k + j)`. -/
def specParts : Nat → List String → List Part
  | _, [] => []
  | k, t :: ts => ⟨"p" ++ Nat.repr k, t, slotTop k, slotLeft k⟩ :: specParts (k + 1) ts

/-- The board type chosen inside `generate_wokwi_diagram` (src/app.py
lines 136-141), as a named function so theorems can refer to it. -/
def boardChoice (mcu : String) : String :=
  if strContains (lower mcu) "esp32" then "wokwi-esp32-devkit-v1"
  else if strContains (lower mcu) "esp8266" then "wokwi-esp8266"
  else "wokwi-arduino-uno"

/-- The correspondence between board families and simulator endpoints
(spec: "Simulator URL selection mirrors the board-selection rule"). -/
def boardToUrl (b : String) : String :=
  if b = "wokwi-esp32-devkit-v1" then "https://wokwi.com/projects/new/esp32"
  else if b = "wokwi-esp8266" then "https://wokwi.com/projects/new/esp8266"
  else "https://wokwi.com/projects/new/arduino-uno"

/-- A document wrapped in a bare fenced code block: three backticks, a
newline, the text, a newline, three closing backticks. -/
def wrapBare (t : List Char) : List Char := fence ++ '\n' :: (t ++ '\n' :: fence)

/-- A concrete JSON document of the expected schema (braces and quotes
written as `\x7b`, `\x7d`, `\x22`), used as the test input for the
fence-handling theorems. -/
def docC8 : String :=
  "\x7b \x22introduction\x22: \x22i\x22, \x22microcontroller\x22: \x22ESP32\x22, \x22components\x22: [\x22DHT11\x22], \x22pin_config\x22: [\x22a\x22], \x22algorithm\x22: [\x22s1\x22,\x22s2\x22,\x22s3\x22,\x22s4\x22,\x22s5\x22,\x22s6\x22,\x22s7\x22], \x22flowchart\x22: \x22flowchart TD\x22, \x22arduino_code\x22: \x22void loop\x22 \x7d"

/-! ### Decimal representation (for the distinctness of part ids)

`Nat.repr` is injective; needed for the pairwise distinctness of the
generated part ids `"p0", "p1", ...`. -/

/-- Numeric value of a decimal digit character. -/
def digitVal (c : Char) : Nat := c.toNat - 48

/-- Decode a most-significant-first decimal digit string. -/
def decodeDigits (l : List Char) : Nat := Nat.ofDigits 10 (l.reverse.map digitVal)

lemma digitVal_digitChar : ∀ d < 10, digitVal (Nat.digitChar d) = d := by decide

lemma toDigitsCore_eq (fuel : Nat) : ∀ (n : Nat) (l : List Char), 0 < n → n ≤ fuel →
    Nat.toDigitsCore 10 fuel n l = ((Nat.digits 10 n).map Nat.digitChar).reverse ++ l := by
  induction fuel with
  | zero => intro n l hn hf; omega
  | succ f ih =>
    intro n l hn hf
    rw [Nat.toDigitsCore]
    have hd : Nat.digits 10 n = n % 10 :: Nat.digits 10 (n / 10) :=
      Nat.digits_def' (by norm_num) hn
    by_cases h0 : n / 10 = 0
    · simp [h0, hd]
    · rw [if_neg h0, ih (n / 10) _ (Nat.pos_of_ne_zero h0)
        (by have := Nat.div_lt_self hn (by norm_num : 1 < 10); omega)]
      rw [hd]
      simp

lemma toDigits_eq (n : Nat) (hn : 0 < n) :
    Nat.toDigits 10 n = ((Nat.digits 10 n).map Nat.digitChar).reverse := by
  rw [Nat.toDigits, toDigitsCore_eq (n + 1) n [] hn (by omega), List.append_nil]

lemma decode_toDigits (n : Nat) : decodeDigits (Nat.toDigits 10 n) = n := by
  rcases Nat.eq_zero_or_pos n with hn | hn
  · subst hn; decide
  · rw [toDigits_eq n hn]
    unfold decodeDigits
    rw [List.reverse_reverse, List.map_map]
    have : (Nat.digits 10 n).map (digitVal ∘ Nat.digitChar) = Nat.digits 10 n := by
      apply List.map_congr_left ?_ |>.trans (List.map_id _)
      intro d hd
      exact digitVal_digitChar d (Nat.digits_lt_base (by norm_num) hd)
    rw [this, Nat.ofDigits_digits]

lemma repr_injective : Function.Injective Nat.repr := by
  intro m n h
  have hl : Nat.toDigits 10 m = Nat.toDigits 10 n := congrArg String.data h
  calc m = decodeDigits (Nat.toDigits 10 m) := (decode_toDigits m).symm
    _ = decodeDigits (Nat.toDigits 10 n) := by rw [hl]
    _ = n := decode_toDigits n

lemma pid_injective : Function.Injective (fun k : Nat => "p" ++ Nat.repr k) := by
  intro a b h
  apply repr_injective
  have h2 : ('p' :: (Nat.repr a).data) = ('p' :: (Nat.repr b).data) := congrArg String.data h
  have h3 : (Nat.repr a).data = (Nat.repr b).data := by injection h2
  exact congrArg String.mk h3

/-! ### Helper lemmas about the progression engine -/

lemma domainLoop_used : ∀ (ds : List Domain) (used : Finset Domain) (g : Nat),
    (domainLoop ds used g).1 = used ∪ ds.toFinset := by
  intro ds
  induction ds with
  | nil => intro used g; simp [domainLoop]
  | cons d ds ih =>
    intro used g
    rw [domainLoop]
    by_cases hd : d ∈ used
    · rw [if_pos hd, ih]
      ext e
      simp only [Finset.mem_union, List.toFinset_cons, Finset.mem_insert, List.mem_toFinset]
      constructor
      · rintro (he | he)
        · exact Or.inl he
        · exact Or.inr (Or.inr he)
      · rintro (he | he | he)
        · exact Or.inl he
        · exact Or.inl (he ▸ hd)
        · exact Or.inr he
    · rw [if_neg hd, ih]
      ext e
      simp only [Finset.mem_union, Finset.mem_insert, List.toFinset_cons, List.mem_toFinset]
      tauto

lemma domainLoop_gain : ∀ (ds : List Domain), ds.Nodup → ∀ (used : Finset Domain) (g : Nat),
    (domainLoop ds used g).2 =
      g + (ds.map (fun d => if d ∈ used then (5 : Nat) else 30)).sum := by
  intro ds
  induction ds with
  | nil => intro _ used g; simp [domainLoop]
  | cons d ds ih =>
    intro hnd used g
    rcases List.nodup_cons.mp hnd with ⟨hd_notin, hnd'⟩
    rw [domainLoop]
    by_cases hd : d ∈ used
    · rw [if_pos hd, ih hnd' used (g + 5)]
      simp [hd]
      ring
    · rw [if_neg hd, ih hnd' (insert d used) (g + 30)]
      have hmap : ds.map (fun e => if e ∈ insert d used then (5 : Nat) else 30)
          = ds.map (fun e => if e ∈ used then (5 : Nat) else 30) := by
        apply List.map_congr_left
        intro e he
        have hne : e ≠ d := fun h => hd_notin (h ▸ he)
        simp [Finset.mem_insert, hne]
      rw [hmap]
      simp [hd]
      ring

/-! ### Helper lemmas about the domain classifier -/

lemma perm_any_eq {l l' : List String} (h : l.Perm l') (p : String → Bool) :
    l.any p = l'.any p := by
  rw [Bool.eq_iff_iff, List.any_eq_true, List.any_eq_true]
  constructor <;> rintro ⟨x, hx, hpx⟩
  · exact ⟨x, h.mem_iff.mp hx, hpx⟩
  · exact ⟨x, h.mem_iff.mpr hx, hpx⟩

/-! ### Helper lemmas about the scene generator -/

lemma slotLeft_zero : slotLeft 0 = -180 := by simp [slotLeft]

lemma slotTop_zero : slotTop 0 = 140 := by simp [slotTop]

lemma placeParts_eq : ∀ (cs : List String) (k : Nat),
    placeParts cs (slotLeft k) (slotTop k) k =
      specParts k (cs.filterMap component_to_wokwi_part) := by
  intro cs
  induction cs with
  | nil => intro k; simp [placeParts, specParts]
  | cons c cs ih =>
    intro k
    cases hc : component_to_wokwi_part c with
    | none => simp [placeParts, hc, List.filterMap_cons, ih k]
    | some t =>
      simp only [placeParts, hc, List.filterMap_cons]
      rw [specParts]
      by_cases hw : slotLeft k + 120 > 180
      · rw [if_pos hw]
        have h1 : (-180 : Int) = slotLeft (k + 1) := by
          simp only [slotLeft] at hw ⊢
          omega
        have h2 : slotTop k + 120 = slotTop (k + 1) := by
          simp only [slotLeft] at hw
          simp only [slotTop]
          omega
        rw [h1, h2, ih (k + 1)]
      · rw [if_neg hw]
        have h1 : slotLeft k + 120 = slotLeft (k + 1) := by
          simp only [slotLeft] at hw ⊢
          omega
        have h2 : slotTop k = slotTop (k + 1) := by
          simp only [slotLeft] at hw
          simp only [slotTop]
          omega
        rw [h1, h2, ih (k + 1)]

lemma generate_parts_eq (mcu : String) (components : List String) :
    (generate_wokwi_diagram mcu components).parts =
      ⟨"mcu", boardChoice mcu, 0, 0⟩
        :: specParts 0 (components.filterMap component_to_wokwi_part) := by
  have h := placeParts_eq components 0
  rw [slotLeft_zero, slotTop_zero] at h
  simp [generate_wokwi_diagram, boardChoice, h]

lemma specParts_map_id : ∀ (ts : List String) (k : Nat),
    (specParts k ts).map Part.id =
      (List.range' k ts.length).map (fun j => "p" ++ Nat.repr j) := by
  intro ts
  induction ts with
  | nil => intro k; simp [specParts]
  | cons t ts ih => intro k; simp [specParts, List.range'_succ, ih]

/-! ### Helper lemmas about the code-fence handling -/

lemma isWS_tick : isWS tick = false := by decide

lemma splitFence_cons (c : Char) (l : List Char)
    (hpre : fence.isPrefixOf (c :: l) = false) :
    splitFence (c :: l) =
      match splitFence l with
      | [] => [[c]]
      | piece :: more => (c :: piece) :: more := by
  match l with
  | [] => rfl
  | [b] => rfl
  | b :: d :: rest =>
    rw [splitFence]
    have hcond : (decide (c = tick) && decide (b = tick) && decide (d = tick)) = false := by
      simp only [fence, List.isPrefixOf, Bool.and_true] at hpre
      simp only [Bool.and_eq_false_iff, decide_eq_false_iff_not, beq_eq_false_iff_ne] at hpre ⊢
      tauto
    rw [if_neg (by simp only [hcond]; exact Bool.false_ne_true)]

lemma splitFence_append (s : List Char) (h : containsSub s fence = false) :
    splitFence (s ++ '\n' :: fence) = [s ++ ['\n'], []] := by
  induction s with
  | nil => rfl
  | cons c s ih =>
    rw [containsSub, Bool.or_eq_false_iff] at h
    obtain ⟨h1, h2⟩ := h
    have hpre : fence.isPrefixOf (c :: (s ++ '\n' :: fence)) = false := by
      match s with
      | [] => simp [fence, List.isPrefixOf, tick]
      | [b] => simp [fence, List.isPrefixOf, tick]
      | b :: d :: s' =>
        simp only [fence, List.isPrefixOf, Bool.and_true, List.cons_append] at h1 ⊢
        exact h1
    rw [List.cons_append, splitFence_cons c _ hpre, ih h2]
    simp

lemma trimChars_eq_self (l : List Char)
    (h1 : ∀ c, l.head? = some c → isWS c = false)
    (h2 : ∀ c, l.getLast? = some c → isWS c = false) :
    trimChars l = l := by
  unfold trimChars
  have d1 : l.dropWhile isWS = l := by
    cases l with
    | nil => rfl
    | cons a l' =>
      rw [List.dropWhile_cons]
      simp [h1 a rfl]
  rw [d1]
  have d2 : l.reverse.dropWhile isWS = l.reverse := by
    cases hr : l.reverse with
    | nil => rfl
    | cons a r' =>
      rw [List.dropWhile_cons]
      have ha : l.getLast? = some a := by
        rw [← List.head?_reverse, hr]
        rfl
      simp [h2 a ha]
  rw [d2, List.reverse_reverse]

lemma trimChars_cons_ws (c : Char) (hc : isWS c = true) (l : List Char) :
    trimChars (c :: l) = trimChars l := by
  unfold trimChars
  rw [List.dropWhile_cons]
  simp [hc]

lemma trimChars_append_ws (c : Char) (hc : isWS c = true) (l : List Char) :
    trimChars (l ++ [c]) = trimChars l := by
  unfold trimChars
  rw [List.dropWhile_append]
  by_cases he : (l.dropWhile isWS).isEmpty
  · rw [if_pos he]
    rw [List.isEmpty_iff] at he
    rw [he]
    simp [List.dropWhile_cons, hc]
  · rw [if_neg he]
    rw [List.reverse_append]
    simp only [List.reverse_cons, List.reverse_nil, List.nil_append, List.singleton_append]
    rw [List.dropWhile_cons]
    simp [hc]

lemma trimChars_wrapBare (t : List Char) :
    trimChars (wrapBare t) = wrapBare t := by
  apply trimChars_eq_self
  · intro c hc
    simp only [wrapBare, fence, List.cons_append, List.head?_cons] at hc
    cases hc
    exact isWS_tick
  · intro c hc
    rw [← List.head?_reverse] at hc
    simp only [wrapBare, fence, List.reverse_append, List.reverse_cons, List.reverse_nil,
      List.nil_append, List.cons_append, List.append_assoc, List.head?_cons] at hc
    cases hc
    exact isWS_tick

lemma stripFence_wrapBare (t : List Char) (h : containsSub t fence = false) :
    stripFence (wrapBare t) = '\n' :: (t ++ ['\n']) := by
  unfold stripFence
  rw [trimChars_wrapBare]
  have hpre : fence.isPrefixOf (wrapBare t) = true := by
    simp [wrapBare, fence, List.isPrefixOf]
  rw [if_pos hpre]
  have hsplit : splitFence (wrapBare t) = [[], '\n' :: (t ++ ['\n']), []] := by
    show splitFence (fence ++ '\n' :: (t ++ '\n' :: fence)) = _
    rw [show (fence ++ '\n' :: (t ++ '\n' :: fence) : List Char)
        = tick :: (tick :: (tick :: (('\n' :: t) ++ ('\n' :: fence)))) by simp [fence]]
    rw [splitFence]
    rw [if_pos (by simp)]
    have hnf : containsSub ('\n' :: t) fence = false := by
      rw [containsSub, Bool.or_eq_false_iff]
      refine ⟨?_, h⟩
      cases t with
      | nil => decide
      | cons a t' =>
        simp [fence, List.isPrefixOf, tick]
    rw [splitFence_append ('\n' :: t) hnf]
    simp
  rw [hsplit]
  rfl

/-! ### The claims -/

/-- C1: for every user state and every duplicate-free list of detected
domain tags, the XP gained by `update_xp_and_streak` is the sum over the
domains of 30 for a domain not previously recorded for that user or 5 for
a previously recorded one, plus flat bonuses of 30 for `cloud`, 20 for
`display` and 20 for `actuator` in the detected set; the new XP is the
current XP plus this gain, and the newly seen domains are recorded. -/
theorem xp_gain_rule (today : Int) (s : UserState) (domains : List Domain)
    (hnd : domains.Nodup) :
    (update_xp_and_streak today s domains).2 =
        (domains.map (fun d => if d ∈ s.used then (5 : Nat) else 30)).sum
        + (if Domain.cloud ∈ domains then 30 else 0)
        + (if Domain.display ∈ domains then 20 else 0)
        + (if Domain.actuator ∈ domains then 20 else 0)
    ∧ (update_xp_and_streak today s domains).1.xp
        = s.xp + ((update_xp_and_streak today s domains).2 : Int)
    ∧ (update_xp_and_streak today s domains).1.used = s.used ∪ domains.toFinset := by
  refine ⟨?_, ?_, ?_⟩
  · simp [update_xp_and_streak, domainLoop_gain domains hnd s.used 0]
  · simp [update_xp_and_streak]
  · simp [update_xp_and_streak, domainLoop_used]

/-- C1 witness: detecting `{cloud, display, actuator}` for a user new to
all three yields a gain of 160; detecting the same set again (all three
now recorded) yields 85. -/
theorem xp_gain_rule_witness :
    (update_xp_and_streak 0 ⟨0, 0, none, ∅⟩
        [Domain.cloud, Domain.display, Domain.actuator]).2 = 160
    ∧ (update_xp_and_streak 0
        ⟨0, 0, none, {Domain.cloud, Domain.display, Domain.actuator}⟩
        [Domain.cloud, Domain.display, Domain.actuator]).2 = 85 := by
  constructor
  · rw [(xp_gain_rule 0 ⟨0, 0, none, ∅⟩
      [Domain.cloud, Domain.display, Domain.actuator] (by decide)).1]
    decide
  · rw [(xp_gain_rule 0 ⟨0, 0, none, {Domain.cloud, Domain.display, Domain.actuator}⟩
      [Domain.cloud, Domain.display, Domain.actuator] (by decide)).1]
    decide

/-- C2: the streak rule of `update_xp_and_streak`: no prior last-visit
date gives streak 1; a last visit exactly 1 day before today increments
the streak; a last visit more than 1 day before today resets it to 1; a
last visit equal to today leaves it unchanged. -/
theorem streak_rule (today : Int) (s : UserState) (domains : List Domain) :
    (s.last_visit = none →
      (update_xp_and_streak today s domains).1.streak = 1)
    ∧ (s.last_visit = some (today - 1) →
      (update_xp_and_streak today s domains).1.streak = s.streak + 1)
    ∧ (∀ last, s.last_visit = some last → 1 < today - last →
      (update_xp_and_streak today s domains).1.streak = 1)
    ∧ (s.last_visit = some today →
      (update_xp_and_streak today s domains).1.streak = s.streak) := by
  refine ⟨?_, ?_, ?_, ?_⟩
  · intro h
    simp [update_xp_and_streak, h]
  · intro h
    simp only [update_xp_and_streak, h]
    norm_num
  · intro last h hgap
    simp only [update_xp_and_streak, h]
    rw [if_neg (by omega), if_pos (by omega)]
  · intro h
    simp only [update_xp_and_streak, h]
    rw [if_neg (by omega), if_neg (by omega)]

/-- C2 witness: on day 5 with current streak 3: no prior visit gives 1;
last visit on day 4 gives 4; last visit on day 2 resets to 1; last visit
on day 5 keeps 3. -/
theorem streak_rule_witness :
    (update_xp_and_streak 5 ⟨0, 3, none, ∅⟩ []).1.streak = 1
    ∧ (update_xp_and_streak 5 ⟨0, 3, some 4, ∅⟩ []).1.streak = 3 + 1
    ∧ (update_xp_and_streak 5 ⟨0, 3, some 2, ∅⟩ []).1.streak = 1
    ∧ (update_xp_and_streak 5 ⟨0, 3, some 5, ∅⟩ []).1.streak = 3 := by
  refine ⟨(streak_rule 5 ⟨0, 3, none, ∅⟩ []).1 rfl,
          (streak_rule 5 ⟨0, 3, some 4, ∅⟩ []).2.1 (by norm_num),
          (streak_rule 5 ⟨0, 3, some 2, ∅⟩ []).2.2.1 2 rfl (by norm_num),
          (streak_rule 5 ⟨0, 3, some 5, ∅⟩ []).2.2.2 rfl⟩

/-- C3: on every invocation of `update_xp_and_streak`, XP never
decreases, and the new streak is 1, the prior streak, or the prior
streak plus exactly 1. -/
theorem progression_invariant (today : Int) (s : UserState) (domains : List Domain) :
    s.xp ≤ (update_xp_and_streak today s domains).1.xp
    ∧ ((update_xp_and_streak today s domains).1.streak = 1
       ∨ (update_xp_and_streak today s domains).1.streak = s.streak
       ∨ (update_xp_and_streak today s domains).1.streak = s.streak + 1) := by
  constructor
  · simp only [update_xp_and_streak]
    exact le_add_of_nonneg_right (Int.natCast_nonneg _)
  · simp only [update_xp_and_streak]
    cases s.last_visit with
    | none => tauto
    | some last =>
      by_cases h1 : today - last = 1
      · simp [h1]
      · by_cases h2 : today - last > 1
        · simp [h1, h2]
        · simp [h1, h2]

/-- C4: a domain tag is in the result of `detect_domains` iff some
component name, lower-cased, contains one of that tag's markers; the
result is duplicate-free, invariant under permutation of the input, and
empty for empty input; classifying `["DHT11 sensor", "LCD1602",
"ESP32 Wifi"]` gives `{sensor, display, cloud}`. -/
theorem detect_domains_spec :
    (∀ (comps : List String) (d : Domain),
      d ∈ detect_domains comps ↔
        ∃ c ∈ comps, ∃ m ∈ domainMarkers d, strContains (lower c) m = true)
    ∧ (∀ comps : List String, (detect_domains comps).Nodup)
    ∧ (∀ comps comps' : List String, comps.Perm comps' →
        detect_domains comps = detect_domains comps')
    ∧ detect_domains [] = []
    ∧ detect_domains ["DHT11 sensor", "LCD1602", "ESP32 Wifi"]
        = [Domain.sensor, Domain.display, Domain.cloud] := by
  have hall : ∀ d : Domain, d ∈ allDomains := by intro d; cases d <;> decide
  refine ⟨?_, ?_, ?_, by decide, by decide⟩
  · intro comps d
    rw [detect_domains, List.mem_filter]
    simp [hall d, componentHasDomain, List.any_eq_true]
  · intro comps
    exact (by decide : allDomains.Nodup).filter _
  · intro comps comps' hperm
    unfold detect_domains
    congr 1
    funext d
    exact perm_any_eq hperm _

/-- C4 witness: a concrete permuted input yields the same detected set. -/
theorem detect_domains_spec_witness :
    detect_domains ["LCD1602", "DHT11", "Relay"]
      = detect_domains ["Relay", "LCD1602", "DHT11"] :=
  detect_domains_spec.2.2.1 ["LCD1602", "DHT11", "Relay"]
    ["Relay", "LCD1602", "DHT11"] (by decide)

/-- C5: the scene layout: the board sits at (top 0, left 0) and the
`k`-th resolvable component (in input order, unresolvable ones consuming
no slot) sits at left `-180 + 120 * (k mod 4)`, top `140 + 120 *
(k div 4)` — i.e. left starts at -180 and advances by +120, wrapping to
-180 with top advancing by +120 once left passes +180; five resolvable
components give exactly the board plus five parts with the fifth
wrapped. -/
theorem scene_layout :
    (∀ (mcu : String) (comps : List String),
      (generate_wokwi_diagram mcu comps).parts =
        ⟨"mcu", boardChoice mcu, 0, 0⟩
          :: specParts 0 (comps.filterMap component_to_wokwi_part))
    ∧ (∀ (mcu : String) (comps : List String), comps.length = 5 →
        (∀ c ∈ comps, (component_to_wokwi_part c).isSome = true) →
        ((generate_wokwi_diagram mcu comps).parts.map (fun p => (p.top, p.left)))
          = [(0, 0), (140, -180), (140, -60), (140, 60), (140, 180), (260, -180)]) := by
  constructor
  · exact generate_parts_eq
  · intro mcu comps h5 hres
    rcases comps with _ | ⟨c0, _ | ⟨c1, _ | ⟨c2, _ | ⟨c3, _ | ⟨c4, _ | ⟨c5, rest⟩⟩⟩⟩⟩⟩ <;>
      simp only [List.length] at h5 <;> try omega
    obtain ⟨t0, ht0⟩ := Option.isSome_iff_exists.mp (hres c0 (by simp))
    obtain ⟨t1, ht1⟩ := Option.isSome_iff_exists.mp (hres c1 (by simp))
    obtain ⟨t2, ht2⟩ := Option.isSome_iff_exists.mp (hres c2 (by simp))
    obtain ⟨t3, ht3⟩ := Option.isSome_iff_exists.mp (hres c3 (by simp))
    obtain ⟨t4, ht4⟩ := Option.isSome_iff_exists.mp (hres c4 (by simp))
    rw [generate_parts_eq]
    simp only [List.filterMap_cons, ht0, ht1, ht2, ht3, ht4, List.filterMap_nil]
    simp [specParts, slotTop, slotLeft]

/-- C5 witness: five concrete resolvable components produce the board
plus five parts at the claimed positions, the fifth wrapped back to left
-180 with top advanced to 260. -/
theorem scene_layout_witness :
    ((generate_wokwi_diagram "Arduino Uno"
        ["dht", "lcd", "oled", "relay", "servo"]).parts.map (fun p => (p.top, p.left)))
      = [(0, 0), (140, -180), (140, -60), (140, 60), (140, 180), (260, -180)] :=
  scene_layout.2 "Arduino Uno" ["dht", "lcd", "oled", "relay", "servo"]
    (by decide) (by decide)

/-- C6: `component_to_wokwi_part` coincides with the spec's
first-matching-rule, case-insensitive substring table in the priority
order dht, ultrasonic|hc-sr04, lcd, oled, relay, servo, led, buzzer,
gas|mq; a name containing "oled" (and matching no earlier rule) yields
SSD1306 rather than LED; "Ultrasonic HC-SR04" maps to HC-SR04 and
"unknown-thing" to no part. -/
theorem part_lookup_rule :
    (∀ name : String, component_to_wokwi_part name = specPartLookup name)
    ∧ (∀ name : String, strContains (lower name) "oled" = true →
        strContains (lower name) "dht" = false →
        strContains (lower name) "ultrasonic" = false →
        strContains (lower name) "hc-sr04" = false →
        strContains (lower name) "lcd" = false →
        component_to_wokwi_part name = some "wokwi-ssd1306")
    ∧ component_to_wokwi_part "Ultrasonic HC-SR04" = some "wokwi-hc-sr04"
    ∧ component_to_wokwi_part "unknown-thing" = none := by
  refine ⟨?_, ?_, by decide, by decide⟩
  · intro name
    simp only [component_to_wokwi_part, specPartLookup, specPartTable, List.find?,
      List.any_cons, List.any_nil, Bool.or_false]
    generalize strContains (lower name) "dht" = b1
    generalize strContains (lower name) "ultrasonic" = b2
    generalize strContains (lower name) "hc-sr04" = b3
    generalize strContains (lower name) "lcd" = b4
    generalize strContains (lower name) "oled" = b5
    generalize strContains (lower name) "relay" = b6
    generalize strContains (lower name) "servo" = b7
    generalize strContains (lower name) "led" = b8
    generalize strContains (lower name) "buzzer" = b9
    generalize strContains (lower name) "gas" = b10
    generalize strContains (lower name) "mq" = b11
    revert b1 b2 b3 b4 b5 b6 b7 b8 b9 b10 b11
    decide
  · intro name h5 h1 h2 h3 h4
    simp [component_to_wokwi_part, h1, h2, h3, h4, h5]

/-- C6 witness: "OLED display" contains both "oled" and "led" yet maps
to the SSD1306 part, not the LED part. -/
theorem part_lookup_rule_witness :
    component_to_wokwi_part "OLED display" = some "wokwi-ssd1306"
    ∧ strContains (lower "OLED display") "led" = true := by
  refine ⟨?_, by decide⟩
  exact part_lookup_rule.2.1 "OLED display"
    (by decide) (by decide) (by decide) (by decide) (by decide)

/-- C7: the simulator URL of `get_wokwi_link` and the board part type
placed by `generate_wokwi_diagram` are selected by the same
case-insensitive esp32 / esp8266 / default rule, so the URL always
agrees with the scene's board family via `boardToUrl`, and the URL is
one of exactly three fixed strings. -/
theorem link_board_agreement (mcu : String) (components : List String) :
    get_wokwi_link mcu
      = boardToUrl ((generate_wokwi_diagram mcu components).parts.headI.type)
    ∧ (get_wokwi_link mcu = "https://wokwi.com/projects/new/esp32"
       ∨ get_wokwi_link mcu = "https://wokwi.com/projects/new/esp8266"
       ∨ get_wokwi_link mcu = "https://wokwi.com/projects/new/arduino-uno") := by
  constructor
  · simp only [get_wokwi_link, generate_wokwi_diagram, List.headI]
    by_cases h32 : strContains (lower mcu) "esp32" = true
    · simp [h32, boardToUrl]
    · simp only [Bool.not_eq_true] at h32
      by_cases h82 : strContains (lower mcu) "esp8266" = true
      · simp [h32, h82, boardToUrl]
      · simp only [Bool.not_eq_true] at h82
        simp [h32, h82, boardToUrl]
  · simp only [get_wokwi_link]
    by_cases h32 : strContains (lower mcu) "esp32" = true
    · simp [h32]
    · simp only [Bool.not_eq_true] at h32
      by_cases h82 : strContains (lower mcu) "esp8266" = true
      · simp [h32, h82]
      · simp only [Bool.not_eq_true] at h82
        simp [h32, h82]

/-- C8 (amended): the fence handling of `get_ai_design` parses a document
wrapped in a *bare* fenced code block to the same document as the
unfenced text — the stripped text is whitespace-equivalent to the
original, and `json.loads` is invariant under surrounding whitespace.
(As stated, with a language tag such as ```json, the claim is false: see
the counterexample — the tag is not stripped.) -/
theorem fence_stripping (t : List Char) (h : containsSub t fence = false) :
    trimChars (stripFence (wrapBare t)) = trimChars t := by
  rw [stripFence_wrapBare t h, trimChars_cons_ws '\n' (by decide),
    trimChars_append_ws '\n' (by decide)]

set_option maxRecDepth 20000 in
/-- C8 witness: the concrete schema document, wrapped in a bare fence,
strips back to a whitespace-equivalent text. -/
theorem fence_stripping_witness :
    trimChars (stripFence (wrapBare docC8.data)) = trimChars docC8.data :=
  fence_stripping docC8.data (by decide)

set_option maxRecDepth 20000 in
/-- C8 counterexample: for a fenced block *with* a language tag, the tag
is not stripped: `text.split("` ``` `")[1]` keeps the leading "json", so
the result is not whitespace-equivalent to the document and no longer
starts with a JSON value token, hence cannot parse to the same (or any)
document — refuting the claim's "with or without a language tag". -/
theorem fence_tag_counterexample :
    jsonStartOk docC8.data = true
    ∧ stripFence (("```json\n" ++ docC8 ++ "\n```").data)
        = ("json\n" ++ docC8 ++ "\n").data
    ∧ jsonStartOk (stripFence (("```json\n" ++ docC8 ++ "\n```").data)) = false
    ∧ trimChars (stripFence (("```json\n" ++ docC8 ++ "\n```").data))
        ≠ trimChars docC8.data := by
  refine ⟨by decide, by decide, by decide, by decide⟩

/-- C9 (amended): the `home` handler leaves the user state untouched
when the design request fails before scoring — the model call errors,
the text does not parse, or the parsed document lacks `components`; but
when the document has `components` and lacks `microcontroller`, the
XP/streak/last-visit/domain update is already committed when the
`KeyError` is caught (the failure is *not* a no-op; see the
counterexample). -/
theorem home_failure_noop (today : Int) (s : UserState) (ai : AiResult) :
    (ai = AiResult.failure → homePost today s ai = (s, false))
    ∧ (∀ doc, ai = AiResult.success doc → doc.components = none →
        homePost today s ai = (s, false))
    ∧ (∀ doc comps, ai = AiResult.success doc → doc.components = some comps →
        doc.microcontroller = none →
        homePost today s ai
          = ((update_xp_and_streak today s (detect_domains comps)).1, false)) := by
  refine ⟨?_, ?_, ?_⟩
  · rintro rfl
    rfl
  · rintro doc rfl hc
    simp [homePost, hc]
  · rintro doc comps rfl hc hm
    simp [homePost, hc, hm]

/-- C9 witness: a failed call and a document lacking `components` leave
the state untouched; a document with `components` but no
`microcontroller` commits the progression update before failing. -/
theorem home_failure_noop_witness :
    homePost 3 ⟨10, 2, some 1, ∅⟩ AiResult.failure = (⟨10, 2, some 1, ∅⟩, false)
    ∧ homePost 3 ⟨10, 2, some 1, ∅⟩
        (AiResult.success ⟨some "i", some "ESP32", none, none, none, none, none⟩)
      = (⟨10, 2, some 1, ∅⟩, false)
    ∧ homePost 3 ⟨10, 2, some 1, ∅⟩
        (AiResult.success ⟨some "i", none, some ["DHT11"], none, none, none, none⟩)
      = ((update_xp_and_streak 3 ⟨10, 2, some 1, ∅⟩ (detect_domains ["DHT11"])).1, false) :=
  ⟨(home_failure_noop 3 ⟨10, 2, some 1, ∅⟩ AiResult.failure).1 rfl,
   (home_failure_noop 3 ⟨10, 2, some 1, ∅⟩
      (AiResult.success ⟨some "i", some "ESP32", none, none, none, none, none⟩)).2.1
      ⟨some "i", some "ESP32", none, none, none, none, none⟩ rfl rfl,
   (home_failure_noop 3 ⟨10, 2, some 1, ∅⟩
      (AiResult.success ⟨some "i", none, some ["DHT11"], none, none, none, none⟩)).2.2
      ⟨some "i", none, some ["DHT11"], none, none, none, none⟩ ["DHT11"] rfl rfl rfl⟩

set_option maxRecDepth 4000 in
/-- C9 counterexample: a parsed document with `components = ["DHT11"]`
but no `microcontroller` field is a failed design request (a required
field is missing, the handler's `try` aborts at `get_wokwi_link`), yet
the user's state is mutated: XP goes from 0 to 30, the sensor domain is
recorded, and the last-visit date is set — refuting "failure is a no-op,
never a partial update". -/
theorem home_failure_counterexample :
    (homePost 7 ⟨0, 0, none, ∅⟩
        (AiResult.success ⟨some "i", none, some ["DHT11"], some ["a"], some ["s"],
          some "f", some "c"⟩)).1
      ≠ (⟨0, 0, none, ∅⟩ : UserState)
    ∧ (homePost 7 ⟨0, 0, none, ∅⟩
        (AiResult.success ⟨some "i", none, some ["DHT11"], some ["a"], some ["s"],
          some "f", some "c"⟩)).1.xp = 30
    ∧ (homePost 7 ⟨0, 0, none, ∅⟩
        (AiResult.success ⟨some "i", none, some ["DHT11"], some ["a"], some ["s"],
          some "f", some "c"⟩)).2 = false := by
  refine ⟨by decide, by decide, by decide⟩

/-- C10: every scene document has pairwise-distinct part identifiers —
the board "mcu" first, then "p0", "p1", ... in placement order; the
number of non-board parts equals the number of components resolving to a
part type (an unresolvable or empty component list leaves the board
alone); and the connections list is always empty. -/
theorem scene_invariants (mcu : String) (comps : List String) :
    ((generate_wokwi_diagram mcu comps).parts.map Part.id).Nodup
    ∧ ((generate_wokwi_diagram mcu comps).parts.map Part.id
        = "mcu" :: (List.range (comps.filterMap component_to_wokwi_part).length).map
            (fun j => "p" ++ Nat.repr j))
    ∧ (generate_wokwi_diagram mcu comps).parts.length
        = (comps.filterMap component_to_wokwi_part).length + 1
    ∧ ((∀ c ∈ comps, component_to_wokwi_part c = none) →
        (generate_wokwi_diagram mcu comps).parts = [⟨"mcu", boardChoice mcu, 0, 0⟩])
    ∧ (generate_wokwi_diagram mcu comps).connections = [] := by
  have hid : (generate_wokwi_diagram mcu comps).parts.map Part.id
      = "mcu" :: (List.range (comps.filterMap component_to_wokwi_part).length).map
          (fun j => "p" ++ Nat.repr j) := by
    rw [generate_parts_eq, List.map_cons, specParts_map_id, List.range_eq_range']
  refine ⟨?_, hid, ?_, ?_, ?_⟩
  · rw [hid]
    refine List.Nodup.cons ?_ ((List.nodup_range _).map ?_)
    · intro hmem
      rw [List.mem_map] at hmem
      obtain ⟨j, _, hj⟩ := hmem
      have hd := congrArg String.data hj
      simp only [String.data_append] at hd
      have hcons : ('p' :: (Nat.repr j).data) = "mcu".data := hd
      rw [show "mcu".data = ['m', 'c', 'u'] from rfl] at hcons
      have hpm : ('p' : Char) = 'm' := by injection hcons
      exact absurd hpm (by decide)
    · intro a b hab
      exact pid_injective hab
  · have := congrArg List.length hid
    simpa using this
  · intro hnone
    rw [generate_parts_eq]
    have hnil : comps.filterMap component_to_wokwi_part = [] := by
      rw [List.filterMap_eq_nil_iff]
      exact hnone
    rw [hnil]
    rfl
  · rfl

/-- C10 witness: an unresolvable component list yields the board alone. -/
theorem scene_invariants_witness :
    (generate_wokwi_diagram "Arduino" ["unknown-thing"]).parts
      = [⟨"mcu", boardChoice "Arduino", 0, 0⟩] :=
  (scene_invariants "Arduino" ["unknown-thing"]).2.2.2.1 (by decide)

end IotGpt
